import Mathlib

/-!
Shallow embedding of the truestate-solution in-memory sales query engine.

Source files embedded here:
 - backend/src/utils/searchIndex.js   (class SearchIndex: build / search / linearSearch)
 - backend/src/utils/dataUtils.js     (applySearch, applyFilters, applySorting, applyPagination)
 - backend/src/services/salesService.js (getSalesDataFiltered, hasActiveFilters) [src/unnamed/part_002]
 - backend/src/controllers/salesController.js (pagination normalisation)

Modelling conventions:
 - JS strings are `List Char` (`JStr`).  All string operations are re-implemented
   structurally so that the kernel can evaluate them (`toLowerCase` is modelled by
   `Char.toLower` per character, `trim`/`split` over ASCII whitespace).
 - A record's `date` field is embedded post-parse: `dateT : Option Int` is the value
   of `new Date(record.date).getTime()`, with `none` standing for `NaN` (invalid date).
   Likewise a filter's `startDate`/`endDate` is `Option (Option Int)`: outer `none`
   models a falsy raw string, `some none` a present-but-unparseable string, and
   `some (some t)` a string parsing to time `t`.  `setHours(23,59,59,999)` on a
   parsed date is modelled by `jsEndOfDay` under a UTC server clock.
 - `minAge`/`maxAge` are `Option Int`; `none` covers both `null` and `NaN`, which the
   source treats identically at every use site (`!== null && !isNaN(...)`).
 - `Array.prototype.sort` (stable since ES2019) is modelled by a stable structural
   insertion sort `sortJs`; a comparator returning NaN is treated as 0, as the
   ECMAScript SortCompare specification does.  Only facts valid for every stable
   sort are used (length preservation and identity on already-sorted input).
 - `SearchIndex.search` is modelled at the level of matched positions: the word
   index / phone index built by `build` are characterised by per-position predicates
   (`wordHit`, `phoneIndexHit`) that say exactly when a position sits in some bucket
   the search consults; the returned list is in ascending position order (the JS
   `Set` insertion order is not modelled; no specified property depends on it).
-/

namespace Sales

/-- JS strings as lists of characters. -/
abbrev JStr := List Char

/-- `s.toLowerCase()` (ASCII model). -/
def jsToLower (s : JStr) : JStr := s.map Char.toLower

/-- `s.trim()`: strip leading and trailing whitespace. -/
def jsTrim (s : JStr) : JStr :=
  ((s.dropWhile Char.isWhitespace).reverse.dropWhile Char.isWhitespace).reverse

/-- `s.replace(/\D/g, '')`: keep only decimal digits. -/
def digitsOnly (s : JStr) : JStr := s.filter Char.isDigit

/-- `s.startsWith(p)`. -/
def leads : JStr → JStr → Bool
  | _, [] => true
  | [], _ :: _ => false
  | b :: s1, a :: p1 => (a == b) && leads s1 p1

/-- `s.includes(p)` (substring containment). -/
def hasSub : JStr → JStr → Bool
  | [], p => p.isEmpty
  | b :: t, p => leads (b :: t) p || hasSub t p

/-- Split a string at every character satisfying `p` (keeping empty pieces),
the basic building block for JS `split`. -/
def splitP (p : Char → Bool) : JStr → List JStr
  | [] => [[]]
  | a :: t =>
    if p a then [] :: splitP p t
    else
      match splitP p t with
      | [] => [[a]]
      | h :: r => (a :: h) :: r

/-- `name.split(/\s+/).filter(w => w.length > 0)`: the whitespace-separated words. -/
def wordsOf (name : JStr) : List JStr :=
  (splitP Char.isWhitespace name).filter (fun w => !w.isEmpty)

/-- `s.split(',')`. -/
def splitComma (s : JStr) : List JStr := splitP (fun c => c == ',') s

/-- Code-point lexicographic three-way comparison (model of `localeCompare`). -/
def lexCmp : JStr → JStr → Int
  | [], [] => 0
  | [], _ :: _ => -1
  | _ :: _, [] => 1
  | a :: s, b :: t => if a < b then -1 else if b < a then 1 else lexCmp s t

/-- One sales record, restricted to the fields the query pipeline reads.
`dateT` is the parse result of the `date` field (see the header comment). -/
structure SRecord where
  customerName : JStr
  phoneNumber : JStr
  gender : JStr
  age : Int
  customerRegion : JStr
  productCategory : JStr
  tags : JStr
  paymentMethod : JStr
  quantity : Int
  finalAmount : Int
  dateT : Option Int
deriving DecidableEq

/-- Default record (used as the out-of-range default for JS `data[i]` indexing). -/
def SRecord.dflt : SRecord :=
  { customerName := [], phoneNumber := [], gender := [], age := 0, customerRegion := []
    productCategory := [], tags := [], paymentMethod := [], quantity := 0
    finalAmount := 0, dateT := none }

/-- The per-request filter object built by the controller (salesController.getSales). -/
structure Filters where
  search : JStr
  regions : List JStr
  genders : List JStr
  categories : List JStr
  tags : List JStr
  paymentMethods : List JStr
  minAge : Option Int
  maxAge : Option Int
  startDate : Option (Option Int)
  endDate : Option (Option Int)
deriving DecidableEq

/-- An entirely inactive filter object. -/
def Filters.inactive : Filters :=
  { search := [], regions := [], genders := [], categories := [], tags := []
    paymentMethods := [], minAge := none, maxAge := none, startDate := none, endDate := none }

/-- dataUtils.applyFilters lines 62-67: `startDateTime` is the parsed start bound,
null when the raw value is falsy or unparseable. -/
def startDateTime (f : Filters) : Option Int :=
  match f.startDate with
  | some (some t) => some t
  | _ => none

/-- `endDate.setHours(23, 59, 59, 999)` on a parsed time, under a UTC server clock:
move to the last millisecond of the same (UTC) day. -/
def jsEndOfDay (t : Int) : Int := t - t % 86400000 + 86399999

/-- dataUtils.applyFilters lines 69-75: the parsed end bound, pushed to the end of
its day; null when the raw value is falsy or unparseable. -/
def endDateTime (f : Filters) : Option Int :=
  match f.endDate with
  | some (some t) => some (jsEndOfDay t)
  | _ => none

/-- Region predicate: inactive or case-normalised membership. -/
def regionOk (f : Filters) (item : SRecord) : Bool :=
  f.regions.isEmpty || (f.regions.map jsToLower).contains (jsToLower item.customerRegion)

/-- Gender predicate. -/
def genderOk (f : Filters) (item : SRecord) : Bool :=
  f.genders.isEmpty || (f.genders.map jsToLower).contains (jsToLower item.gender)

/-- Lower age bound: `item.age >= filters.minAge` when the bound is active. -/
def minAgeOk (f : Filters) (item : SRecord) : Bool :=
  match f.minAge with
  | none => true
  | some m => decide (m ≤ item.age)

/-- Upper age bound: `item.age <= filters.maxAge` when the bound is active. -/
def maxAgeOk (f : Filters) (item : SRecord) : Bool :=
  match f.maxAge with
  | none => true
  | some m => decide (item.age ≤ m)

/-- Product-category predicate. -/
def categoryOk (f : Filters) (item : SRecord) : Bool :=
  f.categories.isEmpty || (f.categories.map jsToLower).contains (jsToLower item.productCategory)

/-- Tag predicate: the record's comma-separated tag list must intersect the requested
set after trim/lowercase; a falsy `item.tags` fails outright (dataUtils lines 119-126). -/
def tagsOk (f : Filters) (item : SRecord) : Bool :=
  if f.tags.isEmpty then true
  else if item.tags.isEmpty then false
  else ((splitComma item.tags).map (fun t => jsToLower (jsTrim t))).any
    (fun t => (f.tags.map jsToLower).contains t)

/-- Payment-method predicate. -/
def paymentOk (f : Filters) (item : SRecord) : Bool :=
  f.paymentMethods.isEmpty ||
    (f.paymentMethods.map jsToLower).contains (jsToLower item.paymentMethod)

/-- Date-range predicate over already-resolved bounds (dataUtils lines 134-148):
no bound ⇒ pass; unparseable record date ⇒ fail; otherwise check both bounds. -/
def dateOkP (sdt edt : Option Int) (item : SRecord) : Bool :=
  if sdt.isNone && edt.isNone then true
  else
    match item.dateT with
    | none => false
    | some t =>
      (match sdt with | none => true | some s => decide (s ≤ t)) &&
      (match edt with | none => true | some e => decide (t ≤ e))

/-- Date-range predicate of a filter object. -/
def dateOk (f : Filters) (item : SRecord) : Bool :=
  dateOkP (startDateTime f) (endDateTime f) item

/-- The single-pass per-record conjunction of dataUtils.applyFilters
(region, gender, age bounds, category, tags, payment method, date range, in source order). -/
def recordMatches (f : Filters) (item : SRecord) : Bool :=
  regionOk f item && genderOk f item && minAgeOk f item && maxAgeOk f item &&
  categoryOk f item && tagsOk f item && paymentOk f item && dateOk f item

/-- dataUtils.applyFilters lines 78-80: `hasAnyFilter` (note: the date clauses test the
parsed bounds, unlike salesService.hasActiveFilters which tests the raw strings). -/
def hasAnyFilter (f : Filters) : Bool :=
  !f.regions.isEmpty || !f.genders.isEmpty || !f.categories.isEmpty || !f.tags.isEmpty ||
  !f.paymentMethods.isEmpty || f.minAge.isSome || f.maxAge.isSome ||
  (startDateTime f).isSome || (endDateTime f).isSome

/-- dataUtils.applyFilters: return the data unchanged when no filter is active,
else the single-pass filtered subset. -/
def applyFilters (data : List SRecord) (f : Filters) : List SRecord :=
  if !hasAnyFilter f then data else data.filter (recordMatches f)

/-- searchIndex.js: the normalised projection stored per record at build time. -/
structure NormEntry where
  name : JStr
  phone : JStr
  phoneDigits : JStr
deriving DecidableEq

/-- Default normalised entry. -/
def NormEntry.dflt : NormEntry := { name := [], phone := [], phoneDigits := [] }

/-- searchIndex.build lines 38-46 per record. -/
def normEntry (r : SRecord) : NormEntry :=
  let nName := jsToLower r.customerName
  let nPhone := jsToLower r.phoneNumber
  { name := nName, phone := nPhone, phoneDigits := digitsOnly nPhone }

/-- The state of the SearchIndex singleton that the claims consult.  The word and
phone indices themselves are characterised by the predicates below. -/
structure SearchIndex where
  normalizedData : List NormEntry
  dataLength : Nat
  isBuilt : Bool
deriving DecidableEq

/-- Constructor / `clear()` state. -/
def SearchIndex.empty : SearchIndex :=
  { normalizedData := [], dataLength := 0, isBuilt := false }

/-- `searchIndex.build(data)`. -/
def SearchIndex.build (data : List SRecord) : SearchIndex :=
  { normalizedData := data.map normEntry, dataLength := data.length, isBuilt := true }

/-- `phoneDigits.slice(-4)`: the last four digits. -/
def lastFour (pd : JStr) : JStr := pd.drop (pd.length - 4)

/-- Position with phone digits `pd` sits in the phone-index bucket keyed `k`
(build lines 59-76: prefixes of length 3..min(|pd|,6), plus the last four digits
when |pd| ≥ 4). -/
def inPhoneBucket (pd k : JStr) : Bool :=
  (decide (3 ≤ k.length) && decide (k.length ≤ 6) && leads pd k) ||
  (decide (4 ≤ pd.length) && k == lastFour pd)

/-- Search strategy 2 (search lines 118-134): the exact query-digit key, plus every
prefix of the query digits of length 3..min(|qd|,6), looked up in the phone index. -/
def phoneIndexHit (pd qd : JStr) : Bool :=
  inPhoneBucket pd qd ||
  (List.range (min qd.length 6 + 1)).any
    (fun len => decide (3 ≤ len) && inPhoneBucket pd (qd.take len))

/-- Search strategy 1 (search lines 106-116): some word of the indexed name is
prefix-equal or exactly equal to the normalised query. -/
def wordHit (e : NormEntry) (nq : JStr) : Bool :=
  (wordsOf e.name).any (fun w => leads w nq || w == nq)

/-- The shared substring predicate of strategy 3 (search lines 138-148) and
`linearSearch` (lines 159-173), whose loop bodies are identical in the source. -/
def substrHit (e : NormEntry) (nq qd : JStr) : Bool :=
  hasSub e.name nq || hasSub e.phone nq ||
  (decide (3 ≤ qd.length) && hasSub e.phoneDigits qd)

/-- `linearSearch(query)`: positions whose stored normalised entry matches the
substring predicate. -/
def SearchIndex.linearSearch (st : SearchIndex) (nq : JStr) : List Nat :=
  let qd := digitsOnly nq
  (List.range st.normalizedData.length).filter
    (fun i => substrHit (st.normalizedData.getD i NormEntry.dflt) nq qd)

/-- The union of strategies 1 and 2 as a set of positions (ascending order). -/
def SearchIndex.indexHits (st : SearchIndex) (nq qd : JStr) : List Nat :=
  (List.range st.normalizedData.length).filter
    (fun i =>
      let e := st.normalizedData.getD i NormEntry.dflt
      wordHit e nq || (decide (3 ≤ qd.length) && phoneIndexHit e.phoneDigits qd))

/-- `searchIndex.search(query, data)` (lines 88-154): `none` is the null sentinel for
an empty query; an unbuilt or stale index falls back to `linearSearch`; otherwise
index hits, or the strategy-3 substring scan when the indices produced nothing. -/
def SearchIndex.search (st : SearchIndex) (q : JStr) (data : List SRecord) :
    Option (List Nat) :=
  if (jsTrim q).isEmpty then none
  else
    let nq := jsTrim (jsToLower q)
    if !st.isBuilt || st.dataLength != data.length then some (st.linearSearch nq)
    else
      let qd := digitsOnly nq
      let hits := st.indexHits nq qd
      if hits.isEmpty then some (st.linearSearch nq) else some hits

/-- dataUtils.applySearch: empty term or null sentinel passes the data through,
otherwise matched indices are mapped back to records. -/
def applySearch (st : SearchIndex) (data : List SRecord) (searchTerm : JStr) :
    List SRecord :=
  if (jsTrim searchTerm).isEmpty then data
  else
    match st.search searchTerm data with
    | none => data
    | some idxs => idxs.map (fun i => data.getD i SRecord.dflt)

/-- Sort request. -/
structure Sorting where
  sortBy : JStr
  sortOrder : JStr
deriving DecidableEq

/-- Sort key literals. -/
def kDate : JStr := "date".toList

/-- Sort key literal. -/
def kQuantity : JStr := "quantity".toList

/-- Sort key literal. -/
def kCustomerName : JStr := "customerName".toList

/-- Sort key literal. -/
def kFinalAmount : JStr := "finalAmount".toList

/-- Sort direction literal. -/
def kDesc : JStr := "desc".toList

/-- The switch of dataUtils.applySorting lines 168-191.  A comparator value that
would be NaN in JS (an unparseable date on either side) is 0, as the ECMAScript
SortCompare coercion prescribes. -/
def cmpBy (k : JStr) (a b : SRecord) : Int :=
  if k == kDate then
    match a.dateT, b.dateT with
    | some x, some y => x - y
    | _, _ => 0
  else if k == kQuantity then a.quantity - b.quantity
  else if k == kCustomerName then lexCmp (jsToLower a.customerName) (jsToLower b.customerName)
  else if k == kFinalAmount then a.finalAmount - b.finalAmount
  else 0

/-- `sortOrder === 'desc' ? -comparison : comparison`. -/
def jsCompare (s : Sorting) (a b : SRecord) : Int :=
  if s.sortOrder == kDesc then -(cmpBy s.sortBy a b) else cmpBy s.sortBy a b

/-- The "a may stay before b" relation induced by the comparator. -/
def sortLe (s : Sorting) (a b : SRecord) : Bool := decide (jsCompare s a b ≤ 0)

/-- Stable insertion of `a` into a sorted list: `a` goes in front of the first
element it compares ≤ to; later elements with equal keys stay behind it. -/
def insertJs {α : Type} (le : α → α → Bool) (a : α) : List α → List α
  | [] => [a]
  | b :: t => if le a b then a :: b :: t else b :: insertJs le a t

/-- Stable sort (model of the stable ES2019 `Array.prototype.sort`). -/
def sortJs {α : Type} (le : α → α → Bool) : List α → List α
  | [] => []
  | x :: t => insertJs le x (sortJs le t)

/-- dataUtils.applySorting: sort a copy of the data by the requested key/direction. -/
def applySorting (data : List SRecord) (s : Sorting) : List SRecord :=
  sortJs (sortLe s) data

/-- Page request (the controller guarantees `page ≥ 1` and `1 ≤ limit ≤ 1000000`). -/
structure Pagination where
  page : Nat
  limit : Nat
deriving DecidableEq

/-- dataUtils.applyPagination: `data.slice((page-1)*limit, (page-1)*limit + limit)`. -/
def applyPagination (data : List SRecord) (p : Pagination) : List SRecord :=
  (data.drop ((p.page - 1) * p.limit)).take p.limit

/-- salesService.hasActiveFilters (part_002 lines 38-50); note the date clauses test
the raw strings (truthiness), not parseability. -/
def hasActiveFilters (f : Filters) : Bool :=
  !f.regions.isEmpty || !f.genders.isEmpty || !f.categories.isEmpty || !f.tags.isEmpty ||
  !f.paymentMethods.isEmpty || f.minAge.isSome || f.maxAge.isSome ||
  f.startDate.isSome || f.endDate.isSome

/-- `Math.ceil(n / m)` for natural operands, `m ≥ 1`. -/
def jsCeilDiv (n m : Nat) : Nat := (n + m - 1) / m

/-- The response object of salesService.getSalesDataFiltered.  `searchStatus` models
the optional extra field that only the database path ever sets; the in-memory path
never includes it (hence always `none` below). -/
structure SalesResponse where
  data : List SRecord
  currentPage : Nat
  totalPages : Nat
  totalItems : Nat
  itemsPerPage : Nat
  hasNextPage : Bool
  hasPrevPage : Bool
  searchStatus : Option JStr
deriving DecidableEq

/-- Pipeline stage 1 (part_002 lines 73-79): apply the text search when
`filters.search` is truthy. -/
def searchedData (store : List SRecord) (st : SearchIndex) (f : Filters) : List SRecord :=
  if !f.search.isEmpty then applySearch st store f.search else store

/-- Pipeline stage 2 (part_002 lines 81-85). -/
def filteredData (store : List SRecord) (st : SearchIndex) (f : Filters) : List SRecord :=
  applyFilters (searchedData store st f) f

/-- part_002 line 92: `sortBy === 'date' && sortOrder === 'desc'`. -/
def isDefaultSort (s : Sorting) : Bool := s.sortBy == kDate && s.sortOrder == kDesc

/-- Pipeline stage 3 (part_002 lines 90-106): skip the sort when the request matches
the store's natural order and nothing filtered; otherwise sort (both size branches
of the source perform the same full sort). -/
def pipelineData (store : List SRecord) (st : SearchIndex) (f : Filters)
    (sorting : Sorting) : List SRecord :=
  let d := filteredData store st f
  if isDefaultSort sorting && f.search.isEmpty && !hasActiveFilters f then d
  else applySorting d sorting

/-- salesService.getSalesDataFiltered, CSV in-memory path (part_002 lines 67-124).
The database delegation branch (`isUsingDatabase()`) is a separate collaborator and
is not part of this in-memory engine. -/
def getSalesDataFiltered (store : List SRecord) (st : SearchIndex) (f : Filters)
    (sorting : Sorting) (pag : Pagination) : SalesResponse :=
  let totalItems := (filteredData store st f).length
  let totalPages := jsCeilDiv totalItems pag.limit
  { data := applyPagination (pipelineData store st f sorting) pag
    currentPage := pag.page
    totalPages := totalPages
    totalItems := totalItems
    itemsPerPage := pag.limit
    hasNextPage := decide (pag.page < totalPages)
    hasPrevPage := decide (1 < pag.page)
    searchStatus := none }

/-- Reference pipeline for the P5 refinement comparison, following the spec's words:
the same orchestrator but always applying the explicit full sort (applySorting),
never the skip optimisation. -/
def getSalesDataFullSort (store : List SRecord) (st : SearchIndex) (f : Filters)
    (sorting : Sorting) (pag : Pagination) : SalesResponse :=
  let totalItems := (filteredData store st f).length
  let totalPages := jsCeilDiv totalItems pag.limit
  { data := applyPagination (applySorting (filteredData store st f) sorting) pag
    currentPage := pag.page
    totalPages := totalPages
    totalItems := totalItems
    itemsPerPage := pag.limit
    hasNextPage := decide (pag.page < totalPages)
    hasPrevPage := decide (1 < pag.page)
    searchStatus := none }

/-- salesController.getSales line 53: `Math.max(1, parseInt(page, 10) || 1)`.
`none` models a NaN parse; `0 || 1` falls back because 0 is falsy. -/
def normalizePage (page : Option Int) : Int :=
  max 1 (match page with | some v => if v == 0 then 1 else v | none => 1)

/-- salesController.getSales lines 51-54:
`Math.min(1000000, Math.max(1, parseInt(limit, 10) || 10))`. -/
def normalizeLimit (limit : Option Int) : Int :=
  let requested := match limit with | some v => if v == 0 then 10 else v | none => 10
  min 1000000 (max 1 requested)

/-- The controller's pagination normalisation: (page, limit) after clamping. -/
def normalizePagination (page limit : Option Int) : Int × Int :=
  (normalizePage page, normalizeLimit limit)

/-! ### Heap model of JS array identity

For the frame claim (the pipeline never mutates the store array) the pipeline is
re-run over an explicit heap of arrays: references are allocated for each freshly
built array (`filter`, `map`, `slice`, the `[...data]` spread copy), and the one
in-place mutation the source performs — `sortedData.sort(...)` inside applySorting,
on the just-made copy — is an explicit heap write. -/

/-- A heap of JS arrays: contents per reference, plus the next fresh reference. -/
structure JSHeap where
  arr : Nat → List SRecord
  next : Nat

/-- Allocate a new array. -/
def halloc (h : JSHeap) (l : List SRecord) : JSHeap × Nat :=
  (⟨fun r => if r = h.next then l else h.arr r, h.next + 1⟩, h.next)

/-- Overwrite the contents of an existing array (in-place mutation). -/
def hwrite (h : JSHeap) (r : Nat) (l : List SRecord) : JSHeap :=
  ⟨fun x => if x = r then l else h.arr x, h.next⟩

/-- applySearch at the heap level: the pass-through branches return the argument
array itself; the index-mapping branch builds a new array. -/
def applySearchH (h : JSHeap) (ref : Nat) (st : SearchIndex) (q : JStr) : JSHeap × Nat :=
  if (jsTrim q).isEmpty then (h, ref)
  else
    match st.search q (h.arr ref) with
    | none => (h, ref)
    | some idxs => halloc h (idxs.map fun i => (h.arr ref).getD i SRecord.dflt)

/-- applyFilters at the heap level: pass-through or a fresh `results` array. -/
def applyFiltersH (h : JSHeap) (ref : Nat) (f : Filters) : JSHeap × Nat :=
  if !hasAnyFilter f then (h, ref)
  else halloc h ((h.arr ref).filter (recordMatches f))

/-- applySorting at the heap level: `[...data]` allocates a copy, then `.sort()`
mutates that copy in place. -/
def applySortingH (h : JSHeap) (ref : Nat) (s : Sorting) : JSHeap × Nat :=
  let a := halloc h (h.arr ref)
  (hwrite a.1 a.2 (sortJs (sortLe s) (a.1.arr a.2)), a.2)

/-- applyPagination at the heap level: `slice` allocates. -/
def applyPaginationH (h : JSHeap) (ref : Nat) (pag : Pagination) : JSHeap × Nat :=
  halloc h (((h.arr ref).drop ((pag.page - 1) * pag.limit)).take pag.limit)

/-- One query request against the shared store. -/
structure QueryReq where
  st : SearchIndex
  f : Filters
  sorting : Sorting
  pag : Pagination

/-- getSalesDataFiltered at the heap level (same staging and skip logic). -/
def getSalesDataFilteredH (h : JSHeap) (storeRef : Nat) (r : QueryReq) : JSHeap × Nat :=
  let s1 := if !r.f.search.isEmpty then applySearchH h storeRef r.st r.f.search
            else (h, storeRef)
  let s2 := applyFiltersH s1.1 s1.2 r.f
  let s3 := if isDefaultSort r.sorting && r.f.search.isEmpty && !hasActiveFilters r.f then s2
            else applySortingH s2.1 s2.2 r.sorting
  applyPaginationH s3.1 s3.2 r.pag

/-- A sequence of requests served one after another against the same store. -/
def runQueries (h : JSHeap) (storeRef : Nat) : List QueryReq → JSHeap
  | [] => h
  | r :: rest => runQueries (getSalesDataFilteredH h storeRef r).1 storeRef rest

/-- `h2` extends `h`: nothing already allocated in `h` has changed. -/
def PreservesBelow (h h2 : JSHeap) : Prop :=
  h.next ≤ h2.next ∧ ∀ r, r < h.next → h2.arr r = h.arr r

/-! ### Claim-level predicates

These spell the spec's P1 wording out against a record, for stating the
search-soundness claim and its amendment. -/

/-- P1 disjunct (a): some word of the record's name has the normalised query as a
prefix. -/
def claimNameHit (r : SRecord) (q : JStr) : Bool :=
  (wordsOf (jsToLower r.customerName)).any (fun w => leads w (jsTrim (jsToLower q)))

/-- P1 disjunct (b): the digits-only query has length ≥ 3 and the record's phone
digits contain it. -/
def claimPhoneHit (r : SRecord) (q : JStr) : Bool :=
  let qd := digitsOnly (jsTrim (jsToLower q))
  decide (3 ≤ qd.length) && hasSub (digitsOnly (jsToLower r.phoneNumber)) qd

/-- The search took the strategy-3 fallback: a non-empty query over a built,
current index for which strategies 1-2 produced no candidate. -/
def usedFallback (data : List SRecord) (q : JStr) : Bool :=
  let st := SearchIndex.build data
  let nq := jsTrim (jsToLower q)
  !(jsTrim q).isEmpty && (st.indexHits nq (digitsOnly nq)).isEmpty

/-- P1 disjunct (c): the record's (normalised) name or phone contains the
normalised query as a substring. -/
def claimSubstrHit (r : SRecord) (q : JStr) : Bool :=
  hasSub (jsToLower r.customerName) (jsTrim (jsToLower q)) ||
  hasSub (jsToLower r.phoneNumber) (jsTrim (jsToLower q))

/-- The P1 disjunction exactly as the claim states it. -/
def claimC1Disj (data : List SRecord) (r : SRecord) (q : JStr) : Bool :=
  claimNameHit r q || claimPhoneHit r q || (usedFallback data q && claimSubstrHit r q)

/-- The search-soundness claim (P1), as stated: every position returned by a search
over the index built from the current collection satisfies the P1 disjunction. -/
def C1Claim : Prop :=
  ∀ (data : List SRecord) (q : JStr) (idxs : List Nat) (i : Nat),
    (SearchIndex.build data).search q data = some idxs → i ∈ idxs →
    claimC1Disj data (data.getD i SRecord.dflt) q = true

/-- Amended phone disjunct: what strategy 2 actually guarantees — the digits-only
query has length ≥ 3 and the query digits themselves, or one of their prefixes of
length 3..6, land in a phone-index bucket of the record (a 3-6 digit prefix of the
record's phone digits, or its last four digits). -/
def amendedPhoneHit (r : SRecord) (q : JStr) : Bool :=
  let qd := digitsOnly (jsTrim (jsToLower q))
  decide (3 ≤ qd.length) && phoneIndexHit (digitsOnly (jsToLower r.phoneNumber)) qd

/-- Amended fallback disjunct: the full strategy-3 predicate (name or phone contains
the normalised query, or the phone digits contain the digits-only query). -/
def amendedFallbackHit (r : SRecord) (q : JStr) : Bool :=
  let nq := jsTrim (jsToLower q)
  let qd := digitsOnly nq
  hasSub (jsToLower r.customerName) nq || hasSub (jsToLower r.phoneNumber) nq ||
  (decide (3 ≤ qd.length) && hasSub (digitsOnly (jsToLower r.phoneNumber)) qd)

/-- The invalid-input claim's "no silent clamping" content: were out-of-bounds page
numbers and page sizes rejected rather than clamped, the controller's pagination
normalisation would leave every numeric request untouched. -/
def C4Claim : Prop := ∀ v w : Int, normalizePagination (some v) (some w) = (v, w)

/-- The index-not-ready claim as stated for the in-memory engine: any request with a
non-blank text query against the never-built index reports a distinct search status. -/
def C5Claim : Prop :=
  ∀ (store : List SRecord) (f : Filters) (sorting : Sorting) (pag : Pagination),
    (jsTrim f.search).isEmpty = false →
    (getSalesDataFiltered store SearchIndex.empty f sorting pag).searchStatus ≠ none

/-- JS `a || b` on option-like fields (first truthy wins), for combining two filter
specifications fieldwise. -/
def jsOr {α : Type} : Option α → Option α → Option α
  | some x, _ => some x
  | none, b => b

/-- The combined specification "f1 AND f2": each enumerated-value list is the union
(concatenation) of the two, each optional field comes from whichever side set it. -/
def mergeFilters (f1 f2 : Filters) : Filters :=
  { search := []
    regions := f1.regions ++ f2.regions
    genders := f1.genders ++ f2.genders
    categories := f1.categories ++ f2.categories
    tags := f1.tags ++ f2.tags
    paymentMethods := f1.paymentMethods ++ f2.paymentMethods
    minAge := jsOr f1.minAge f2.minAge
    maxAge := jsOr f1.maxAge f2.maxAge
    startDate := jsOr f1.startDate f2.startDate
    endDate := jsOr f1.endDate f2.endDate }

/-- The two filter specifications constrain disjoint sets of fields (the claim's
"independent structural filters on distinct fields"). -/
def DisjointFilters (f1 f2 : Filters) : Prop :=
  (f1.regions = [] ∨ f2.regions = []) ∧
  (f1.genders = [] ∨ f2.genders = []) ∧
  (f1.categories = [] ∨ f2.categories = []) ∧
  (f1.tags = [] ∨ f2.tags = []) ∧
  (f1.paymentMethods = [] ∨ f2.paymentMethods = []) ∧
  (f1.minAge = none ∨ f2.minAge = none) ∧
  (f1.maxAge = none ∨ f2.maxAge = none) ∧
  (f1.startDate = none ∨ f2.startDate = none) ∧
  (f1.endDate = none ∨ f2.endDate = none)

/-! ### Concrete data for witnesses and counterexamples -/

/-- A record whose phone digits are 12345 and whose name shares no word with
any digit query. -/
def cexRec : SRecord :=
  { SRecord.dflt with customerName := "x".toList, phoneNumber := "12345".toList }

/-- One-record collection for the search-soundness counterexample. -/
def cexData : List SRecord := [cexRec]

/-- Demo record (newest). -/
def recA : SRecord :=
  { SRecord.dflt with customerName := "ann".toList, customerRegion := "north".toList
                      gender := "f".toList, age := 35, dateT := some 200 }

/-- Demo record (older). -/
def recB : SRecord :=
  { SRecord.dflt with customerName := "bob".toList, customerRegion := "south".toList
                      gender := "m".toList, age := 20, dateT := some 100 }

/-- A two-record store already in the natural order (date descending). -/
def demoStore : List SRecord := [recA, recB]

/-- One-record collection whose single record matches the query "alice". -/
def aliceStore : List SRecord := [{ SRecord.dflt with customerName := "alice".toList }]

/-- A request carrying the text query "alice". -/
def aliceFilters : Filters := { Filters.inactive with search := "alice".toList }

/-- Structural filter on the region field only. -/
def regionFilter : Filters := { Filters.inactive with regions := ["north".toList] }

/-- Structural filter on the minimum-age field only. -/
def minAgeFilter : Filters := { Filters.inactive with minAge := some 30 }

/-- Structural filter with only a start-date bound (parsing to time 150). -/
def dateFilter : Filters := { Filters.inactive with startDate := some (some 150) }

/-- A heap whose reference 0 is the store. -/
def demoHeap : JSHeap := { arr := fun _ => demoStore, next := 1 }

/-- A demo request that exercises filter and sort stages. -/
def demoReq : QueryReq :=
  { st := SearchIndex.build demoStore, f := regionFilter
    sorting := { sortBy := kQuantity, sortOrder := kDesc }, pag := { page := 1, limit := 5 } }

end Sales

/-! ## Helper lemmas -/

namespace Sales

theorem length_insertJs {α : Type} (le : α → α → Bool) (a : α) :
    ∀ l : List α, (insertJs le a l).length = l.length + 1 := by
  intro l
  induction l with
  | nil => rfl
  | cons b t ih =>
    unfold insertJs
    split
    · simp
    · simp [ih]

theorem length_sortJs {α : Type} (le : α → α → Bool) :
    ∀ l : List α, (sortJs le l).length = l.length := by
  intro l
  induction l with
  | nil => rfl
  | cons x t ih =>
    unfold sortJs
    rw [length_insertJs, ih]
    rfl

theorem sortJs_of_pairwise {α : Type} {le : α → α → Bool} :
    ∀ {l : List α}, l.Pairwise (fun a b => le a b = true) → sortJs le l = l := by
  intro l h
  induction l with
  | nil => rfl
  | cons x t ih =>
    rw [List.pairwise_cons] at h
    obtain ⟨hx, ht⟩ := h
    unfold sortJs
    rw [ih ht]
    cases t with
    | nil => rfl
    | cons b t2 => simp [insertJs, hx b (List.mem_cons_self b t2)]

theorem pairwise_of_true {α : Type} {le : α → α → Bool} (h : ∀ a b, le a b = true) :
    ∀ l : List α, l.Pairwise (fun a b => le a b = true) := by
  intro l
  induction l with
  | nil => exact List.Pairwise.nil
  | cons x t ih => exact List.Pairwise.cons (fun b _ => h x b) ih

theorem hasAnyFilter_false_matches {f : Filters} (h : hasAnyFilter f = false)
    (item : SRecord) : recordMatches f item = true := by
  unfold hasAnyFilter at h
  simp only [Bool.or_eq_false_iff, Bool.not_eq_eq_eq_not, Bool.not_false] at h
  obtain ⟨⟨⟨⟨⟨⟨⟨⟨hr, hg⟩, hc⟩, ht⟩, hp⟩, hmn⟩, hmx⟩, hsd⟩, hed⟩ := h
  have hmn2 : f.minAge = none := Option.not_isSome_iff_eq_none.mp (by simp [hmn])
  have hmx2 : f.maxAge = none := Option.not_isSome_iff_eq_none.mp (by simp [hmx])
  have hsd2 : startDateTime f = none := Option.not_isSome_iff_eq_none.mp (by simp [hsd])
  have hed2 : endDateTime f = none := Option.not_isSome_iff_eq_none.mp (by simp [hed])
  unfold recordMatches regionOk genderOk minAgeOk maxAgeOk categoryOk tagsOk paymentOk
    dateOk dateOkP
  simp [hr, hg, hc, ht, hp, hmn2, hmx2, hsd2, hed2]

theorem applyFilters_eq_filter (data : List SRecord) (f : Filters) :
    applyFilters data f = data.filter (recordMatches f) := by
  unfold applyFilters
  cases h : hasAnyFilter f with
  | false =>
    simp only [h, Bool.not_false, if_true]
    exact (List.filter_eq_self.mpr (fun a _ => hasAnyFilter_false_matches h a)).symm
  | true => simp [h]

theorem hasActiveFilters_false_hasAny {f : Filters} (h : hasActiveFilters f = false) :
    hasAnyFilter f = false := by
  unfold hasActiveFilters at h
  simp only [Bool.or_eq_false_iff, Bool.not_eq_eq_eq_not, Bool.not_false] at h
  obtain ⟨⟨⟨⟨⟨⟨⟨⟨hr, hg⟩, hc⟩, ht⟩, hp⟩, hmn⟩, hmx⟩, hsd⟩, hed⟩ := h
  have hsd2 : f.startDate = none := Option.not_isSome_iff_eq_none.mp (by simp [hsd])
  have hed2 : f.endDate = none := Option.not_isSome_iff_eq_none.mp (by simp [hed])
  unfold hasAnyFilter startDateTime endDateTime
  simp [hr, hg, hc, ht, hp, hmn, hmx, hsd2, hed2]

theorem length_pipelineData (store : List SRecord) (st : SearchIndex) (f : Filters)
    (sorting : Sorting) :
    (pipelineData store st f sorting).length = (filteredData store st f).length := by
  unfold pipelineData applySorting
  split
  · rfl
  · exact length_sortJs _ _

theorem leads_refl : ∀ s : JStr, leads s s = true := by
  intro s
  induction s with
  | nil => rfl
  | cons a t ih => simp [leads, ih]

theorem getD_map_norm : ∀ (l : List SRecord) (i : Nat), i < l.length →
    (l.map normEntry).getD i NormEntry.dflt = normEntry (l.getD i SRecord.dflt) := by
  intro l
  induction l with
  | nil => intro i h; simp at h
  | cons x t ih =>
    intro i h
    cases i with
    | zero => simp
    | succ j =>
      simp only [List.map_cons, List.getD_cons_succ]
      exact ih j (by simpa using h)

theorem jsOr_none_right {α : Type} (x : Option α) : jsOr x none = x := by
  cases x <;> rfl

theorem listComp_merge (l1 l2 : List JStr) (v : JStr) (h : l1 = [] ∨ l2 = []) :
    ((l1 ++ l2).isEmpty || ((l1 ++ l2).map jsToLower).contains v)
      = ((l1.isEmpty || (l1.map jsToLower).contains v) &&
         (l2.isEmpty || (l2.map jsToLower).contains v)) := by
  rcases h with h | h <;> subst h <;> simp

theorem regionOk_merge (f1 f2 : Filters) (item : SRecord) (h : f1.regions = [] ∨ f2.regions = []) :
    regionOk (mergeFilters f1 f2) item = (regionOk f1 item && regionOk f2 item) := by
  unfold regionOk mergeFilters
  exact listComp_merge _ _ _ h

theorem genderOk_merge (f1 f2 : Filters) (item : SRecord) (h : f1.genders = [] ∨ f2.genders = []) :
    genderOk (mergeFilters f1 f2) item = (genderOk f1 item && genderOk f2 item) := by
  unfold genderOk mergeFilters
  exact listComp_merge _ _ _ h

theorem categoryOk_merge (f1 f2 : Filters) (item : SRecord)
    (h : f1.categories = [] ∨ f2.categories = []) :
    categoryOk (mergeFilters f1 f2) item = (categoryOk f1 item && categoryOk f2 item) := by
  unfold categoryOk mergeFilters
  exact listComp_merge _ _ _ h

theorem paymentOk_merge (f1 f2 : Filters) (item : SRecord)
    (h : f1.paymentMethods = [] ∨ f2.paymentMethods = []) :
    paymentOk (mergeFilters f1 f2) item = (paymentOk f1 item && paymentOk f2 item) := by
  unfold paymentOk mergeFilters
  exact listComp_merge _ _ _ h

theorem tagsOk_merge (f1 f2 : Filters) (item : SRecord) (h : f1.tags = [] ∨ f2.tags = []) :
    tagsOk (mergeFilters f1 f2) item = (tagsOk f1 item && tagsOk f2 item) := by
  unfold tagsOk mergeFilters
  rcases h with h | h <;> rw [h] <;> simp

theorem minAgeOk_merge (f1 f2 : Filters) (item : SRecord) (h : f1.minAge = none ∨ f2.minAge = none) :
    minAgeOk (mergeFilters f1 f2) item = (minAgeOk f1 item && minAgeOk f2 item) := by
  unfold minAgeOk mergeFilters
  rcases h with h | h
  · rw [h]; simp [jsOr]
  · rw [h, jsOr_none_right]
    cases f1.minAge <;> simp

theorem maxAgeOk_merge (f1 f2 : Filters) (item : SRecord) (h : f1.maxAge = none ∨ f2.maxAge = none) :
    maxAgeOk (mergeFilters f1 f2) item = (maxAgeOk f1 item && maxAgeOk f2 item) := by
  unfold maxAgeOk mergeFilters
  rcases h with h | h
  · rw [h]; simp [jsOr]
  · rw [h, jsOr_none_right]
    cases f1.maxAge <;> simp

theorem dateOkP_split (sdt edt : Option Int) (item : SRecord) :
    dateOkP sdt edt item = (dateOkP sdt none item && dateOkP none edt item) := by
  unfold dateOkP
  cases sdt <;> cases edt <;> cases item.dateT <;> simp

theorem dateOkP_none_none (item : SRecord) : dateOkP none none item = true := rfl

theorem dateOk_merge (f1 f2 : Filters) (item : SRecord)
    (hS : f1.startDate = none ∨ f2.startDate = none)
    (hE : f1.endDate = none ∨ f2.endDate = none) :
    dateOk (mergeFilters f1 f2) item = (dateOk f1 item && dateOk f2 item) := by
  have hsd : (startDateTime (mergeFilters f1 f2) = startDateTime f2 ∧ startDateTime f1 = none) ∨
      (startDateTime (mergeFilters f1 f2) = startDateTime f1 ∧ startDateTime f2 = none) := by
    rcases hS with h | h
    · exact Or.inl ⟨by simp [startDateTime, mergeFilters, h, jsOr], by simp [startDateTime, h]⟩
    · exact Or.inr ⟨by simp [startDateTime, mergeFilters, h, jsOr_none_right],
        by simp [startDateTime, h]⟩
  have hed : (endDateTime (mergeFilters f1 f2) = endDateTime f2 ∧ endDateTime f1 = none) ∨
      (endDateTime (mergeFilters f1 f2) = endDateTime f1 ∧ endDateTime f2 = none) := by
    rcases hE with h | h
    · exact Or.inl ⟨by simp [endDateTime, mergeFilters, h, jsOr], by simp [endDateTime, h]⟩
    · exact Or.inr ⟨by simp [endDateTime, mergeFilters, h, jsOr_none_right],
        by simp [endDateTime, h]⟩
  unfold dateOk
  rcases hsd with ⟨hm, ho⟩ | ⟨hm, ho⟩ <;> rcases hed with ⟨hm2, ho2⟩ | ⟨hm2, ho2⟩ <;>
    rw [hm, hm2, ho, ho2]
  · rw [dateOkP_none_none]
    simp
  · rw [dateOkP_split (startDateTime f2) (endDateTime f1) item, Bool.and_comm]
  · exact dateOkP_split _ _ _
  · rw [dateOkP_none_none, Bool.and_true]

theorem recordMatches_merge (f1 f2 : Filters) (item : SRecord) (h : DisjointFilters f1 f2) :
    recordMatches (mergeFilters f1 f2) item = (recordMatches f1 item && recordMatches f2 item) := by
  obtain ⟨h1, h2, h3, h4, h5, h6, h7, h8, h9⟩ := h
  unfold recordMatches
  rw [regionOk_merge f1 f2 item h1, genderOk_merge f1 f2 item h2,
      minAgeOk_merge f1 f2 item h6, maxAgeOk_merge f1 f2 item h7,
      categoryOk_merge f1 f2 item h3, tagsOk_merge f1 f2 item h4,
      paymentOk_merge f1 f2 item h5, dateOk_merge f1 f2 item h8 h9]
  simp [Bool.and_comm, Bool.and_assoc, Bool.and_left_comm]

theorem jsCeilDiv_zero {m : Nat} (hm : 1 ≤ m) : jsCeilDiv 0 m = 0 := by
  unfold jsCeilDiv
  exact Nat.div_eq_of_lt (by omega)

theorem jsCeilDiv_pos_eq {n m : Nat} (hm : 1 ≤ m) (hn : 1 ≤ n) :
    jsCeilDiv n m = (n - 1) / m + 1 := by
  unfold jsCeilDiv
  rw [show n + m - 1 = (n - 1) + m by omega, Nat.add_div_right _ (by omega)]

theorem jsCeilDiv_succ {n m : Nat} (hm : 1 ≤ m) (hn : 1 ≤ n) :
    jsCeilDiv n m = jsCeilDiv (n - m) m + 1 := by
  rw [jsCeilDiv_pos_eq hm hn]
  by_cases h : n ≤ m
  · rw [show n - m = 0 by omega, jsCeilDiv_zero hm, Nat.div_eq_of_lt (by omega)]
  · rw [jsCeilDiv_pos_eq hm (by omega), show n - m - 1 = (n - 1) - m by omega]
    have h3 : n - 1 = ((n - 1) - m) + m := by omega
    conv_lhs => rw [h3]
    rw [Nat.add_div_right _ (by omega)]

theorem pagesFlatten {α : Type} (limit : Nat) (hl : 1 ≤ limit) :
    ∀ (fuel : Nat) (l : List α), l.length ≤ fuel →
      ((List.range (jsCeilDiv l.length limit)).map
        (fun k => (l.drop (k * limit)).take limit)).flatten = l := by
  intro fuel
  induction fuel with
  | zero =>
    intro l h
    have : l = [] := List.eq_nil_of_length_eq_zero (by omega)
    subst this
    simp [jsCeilDiv_zero hl]
  | succ n ih =>
    intro l hlen
    cases l with
    | nil => simp [jsCeilDiv_zero hl]
    | cons a t =>
      rw [jsCeilDiv_succ hl (by simp), List.range_succ_eq_map, List.map_cons,
        List.flatten_cons, List.map_map]
      have htail : ((List.range (jsCeilDiv ((a :: t).length - limit) limit)).map
          ((fun k => (((a :: t).drop (k * limit)).take limit) : Nat → List α) ∘ Nat.succ))
          = (List.range (jsCeilDiv (((a :: t).drop limit).length) limit)).map
            (fun k => ((((a :: t).drop limit)).drop (k * limit)).take limit) := by
        rw [List.length_drop]
        refine List.map_congr_left (fun k _ => ?_)
        simp only [Function.comp_apply, List.drop_drop]
        rw [show Nat.succ k * limit = limit + k * limit by rw [Nat.succ_mul]; omega]
      have hlen2 : ((a :: t).drop limit).length ≤ n := by
        simp only [List.length_drop, List.length_cons] at hlen ⊢
        omega
      rw [htail, ih ((a :: t).drop limit) hlen2]
      simp [List.take_append_drop]

theorem preserves_refl (h : JSHeap) : PreservesBelow h h := ⟨le_rfl, fun _ _ => rfl⟩

theorem preserves_trans {h1 h2 h3 : JSHeap} (a : PreservesBelow h1 h2)
    (b : PreservesBelow h2 h3) : PreservesBelow h1 h3 :=
  ⟨le_trans a.1 b.1, fun r hr => (b.2 r (lt_of_lt_of_le hr a.1)).trans (a.2 r hr)⟩

theorem preserves_halloc (h : JSHeap) (l : List SRecord) : PreservesBelow h (halloc h l).1 :=
  ⟨Nat.le_succ _, fun r hr => by simp [halloc, Nat.ne_of_lt hr]⟩

theorem preserves_searchH (h : JSHeap) (ref : Nat) (st : SearchIndex) (q : JStr) :
    PreservesBelow h (applySearchH h ref st q).1 := by
  unfold applySearchH
  split
  · exact preserves_refl h
  · cases hs : st.search q (h.arr ref) with
    | none => simp only [hs]; exact preserves_refl h
    | some idxs => simp only [hs]; exact preserves_halloc h _

theorem preserves_filtersH (h : JSHeap) (ref : Nat) (f : Filters) :
    PreservesBelow h (applyFiltersH h ref f).1 := by
  unfold applyFiltersH
  split
  · exact preserves_refl h
  · exact preserves_halloc h _

theorem preserves_sortingH (h : JSHeap) (ref : Nat) (s : Sorting) :
    PreservesBelow h (applySortingH h ref s).1 :=
  ⟨by simp [applySortingH, halloc, hwrite],
   fun r hr => by simp [applySortingH, halloc, hwrite, Nat.ne_of_lt hr]⟩

theorem preserves_paginationH (h : JSHeap) (ref : Nat) (pag : Pagination) :
    PreservesBelow h (applyPaginationH h ref pag).1 := by
  unfold applyPaginationH
  exact preserves_halloc h _

theorem preserves_pipelineH (h : JSHeap) (sref : Nat) (r : QueryReq) :
    PreservesBelow h (getSalesDataFilteredH h sref r).1 := by
  simp only [getSalesDataFilteredH]
  have p1 : PreservesBelow h
      (if !r.f.search.isEmpty then applySearchH h sref r.st r.f.search else (h, sref)).1 := by
    split
    · exact preserves_searchH h sref r.st r.f.search
    · exact preserves_refl h
  set s1 := if !r.f.search.isEmpty then applySearchH h sref r.st r.f.search else (h, sref) with hs1
  have p2 : PreservesBelow s1.1 (applyFiltersH s1.1 s1.2 r.f).1 :=
    preserves_filtersH s1.1 s1.2 r.f
  set s2 := applyFiltersH s1.1 s1.2 r.f with hs2
  have p3 : PreservesBelow s2.1
      (if isDefaultSort r.sorting && r.f.search.isEmpty && !hasActiveFilters r.f then s2
       else applySortingH s2.1 s2.2 r.sorting).1 := by
    split
    · exact preserves_refl s2.1
    · exact preserves_sortingH s2.1 s2.2 r.sorting
  set s3 := if isDefaultSort r.sorting && r.f.search.isEmpty && !hasActiveFilters r.f then s2
            else applySortingH s2.1 s2.2 r.sorting with hs3
  exact preserves_trans p1 (preserves_trans p2 (preserves_trans p3
    (preserves_paginationH s3.1 s3.2 r.pag)))

end Sales

/-! ## Claim theorems -/

namespace Sales

/-- C1 (counterexample): search soundness as stated is false.  On the one-record
collection whose record has phone digits 12345, the query "1239" is returned by the
index path (its 3-digit prefix 123 hits a phone bucket), yet no word of the name is
prefixed by the query, the phone digits 12345 do not contain 1239, and the fallback
was not used. -/
theorem search_soundness_cex : ¬C1Claim := by
  intro h
  have h1 := h cexData ("1239".toList) [0] 0 (by decide) (by decide)
  have h2 : claimC1Disj cexData (cexData.getD 0 SRecord.dflt) ("1239".toList) = false := by
    decide
  rw [h2] at h1
  exact Bool.false_ne_true h1

/-- C1 (amended): every position returned by search over the index built from the
current collection satisfies: some word of the record's name has the normalised
query as a prefix, or the digits-only query has length ≥ 3 and lands (itself, or
one of its prefixes of length 3..6) in one of the record's phone-index buckets
(a 3-6 digit prefix of the record's phone digits, or its last four digits), or —
fallback case only — the record's normalised name or phone contains the normalised
query, or its phone digits contain the digits-only query (length ≥ 3). -/
theorem search_soundness_amended (data : List SRecord) (q : JStr) (idxs : List Nat) (i : Nat)
    (hs : (SearchIndex.build data).search q data = some idxs) (hi : i ∈ idxs) :
    i < data.length ∧
    (claimNameHit (data.getD i SRecord.dflt) q = true ∨
     amendedPhoneHit (data.getD i SRecord.dflt) q = true ∨
     (usedFallback data q = true ∧
       amendedFallbackHit (data.getD i SRecord.dflt) q = true)) := by
  simp only [SearchIndex.search] at hs
  split at hs
  · exact absurd hs (by simp)
  next hq =>
    split at hs
    next hb => exact absurd hb (by simp [SearchIndex.build])
    next hb =>
      have hlen : (SearchIndex.build data).normalizedData.length = data.length := by
        simp [SearchIndex.build]
      split at hs
      next hhits =>
        -- fallback: linearSearch over the stored normalised data
        rw [Option.some_inj] at hs
        subst hs
        simp only [SearchIndex.linearSearch] at hi
        rw [List.mem_filter] at hi
        obtain ⟨hir, hip⟩ := hi
        rw [List.mem_range, hlen] at hir
        refine ⟨hir, Or.inr (Or.inr ⟨?_, ?_⟩)⟩
        · simp only [usedFallback, Bool.and_eq_true, Bool.not_eq_true']
          constructor
          · simpa using hq
          · exact hhits
        · have he : (SearchIndex.build data).normalizedData.getD i NormEntry.dflt
              = normEntry (data.getD i SRecord.dflt) := by
            have := getD_map_norm data i hir
            simpa [SearchIndex.build] using this
          rw [he] at hip
          simpa [substrHit, normEntry, amendedFallbackHit] using hip
      next hhits =>
        -- index hits: strategies 1 and 2
        rw [Option.some_inj] at hs
        subst hs
        simp only [SearchIndex.indexHits] at hi
        rw [List.mem_filter] at hi
        obtain ⟨hir, hip⟩ := hi
        rw [List.mem_range, hlen] at hir
        have he : (SearchIndex.build data).normalizedData.getD i NormEntry.dflt
            = normEntry (data.getD i SRecord.dflt) := by
          have := getD_map_norm data i hir
          simpa [SearchIndex.build] using this
        rw [he] at hip
        rw [Bool.or_eq_true] at hip
        refine ⟨hir, ?_⟩
        rcases hip with hw | hp
        · -- word strategy
          left
          simp only [wordHit, normEntry, List.any_eq_true] at hw
          obtain ⟨w, hwmem, hwp⟩ := hw
          rw [Bool.or_eq_true] at hwp
          simp only [claimNameHit, List.any_eq_true]
          refine ⟨w, hwmem, ?_⟩
          rcases hwp with hwp | hwp
          · exact hwp
          · rw [eq_of_beq hwp]
            exact leads_refl _
        · -- phone strategy
          right; left
          simpa [amendedPhoneHit, normEntry] using hp

/-- C1 (witness): the amended soundness theorem applied to the concrete
counterexample collection and query. -/
theorem search_soundness_amended_witness :
    0 < cexData.length ∧
    (claimNameHit (cexData.getD 0 SRecord.dflt) ("1239".toList) = true ∨
     amendedPhoneHit (cexData.getD 0 SRecord.dflt) ("1239".toList) = true ∨
     (usedFallback cexData ("1239".toList) = true ∧
       amendedFallbackHit (cexData.getD 0 SRecord.dflt) ("1239".toList) = true)) :=
  search_soundness_amended cexData ("1239".toList) [0] 0 (by decide) (by decide)

/-- C2: when the requested sort is (date, descending), no text query and no
structural filter is active, and the store is in its natural pre-sorted order
(date descending, non-increasing under the date comparator), the orchestrator's
skip-sort output is identical — field for field — to the pipeline that applies
the explicit full sort (applySorting) over the same collection. -/
theorem sort_skip_equiv (store : List SRecord) (st : SearchIndex) (f : Filters)
    (pag : Pagination) (hq : f.search = []) (hf : hasActiveFilters f = false)
    (hs : store.Pairwise (fun a b => sortLe ⟨kDate, kDesc⟩ a b = true)) :
    getSalesDataFiltered store st f ⟨kDate, kDesc⟩ pag =
      getSalesDataFullSort store st f ⟨kDate, kDesc⟩ pag := by
  have hAny := hasActiveFilters_false_hasAny hf
  have hfd : filteredData store st f = store := by
    unfold filteredData searchedData
    rw [hq]
    simp [applyFilters, hAny]
  have hsorted : applySorting store ⟨kDate, kDesc⟩ = store := sortJs_of_pairwise hs
  have hds : isDefaultSort ⟨kDate, kDesc⟩ = true := by decide
  have hpd : pipelineData store st f ⟨kDate, kDesc⟩ = store := by
    simp only [pipelineData]
    rw [hfd, hq]
    simp [hds, hf]
  simp only [getSalesDataFiltered, getSalesDataFullSort, hpd, hfd, hsorted]

/-- C2 (witness): the skip path and the explicit-sort path agree on the concrete
pre-sorted two-record store with no filters. -/
theorem sort_skip_equiv_witness :
    getSalesDataFiltered demoStore (SearchIndex.build demoStore) Filters.inactive
        ⟨kDate, kDesc⟩ ⟨1, 10⟩ =
      getSalesDataFullSort demoStore (SearchIndex.build demoStore) Filters.inactive
        ⟨kDate, kDesc⟩ ⟨1, 10⟩ :=
  sort_skip_equiv demoStore (SearchIndex.build demoStore) Filters.inactive ⟨1, 10⟩ rfl
    (by decide) (by decide)

/-- C9: a query that is empty after trimming makes search return the null sentinel
("no filtering by text"), applySearch passes the collection through unchanged, and
the sentinel is distinct from the empty result list that a non-matching non-empty
query produces. -/
theorem empty_query_sentinel (st : SearchIndex) (data : List SRecord) (q : JStr)
    (hq : (jsTrim q).isEmpty = true) :
    st.search q data = none ∧ applySearch st data q = data ∧
      (none : Option (List Nat)) ≠ some [] := by
  refine ⟨?_, ?_, by simp⟩
  · unfold SearchIndex.search
    rw [if_pos hq]
  · unfold applySearch
    rw [if_pos hq]

/-- C9 (witness): the sentinel behaviour at a concrete whitespace-only query. -/
theorem empty_query_sentinel_witness :
    (SearchIndex.build demoStore).search ("  ".toList) demoStore = none ∧
    applySearch (SearchIndex.build demoStore) demoStore ("  ".toList) = demoStore ∧
      (none : Option (List Nat)) ≠ some [] :=
  empty_query_sentinel (SearchIndex.build demoStore) demoStore ("  ".toList) (by decide)

/-- C3: for every filter/sort combination and pageSize ≥ 1, concatenating the record
lists of pages 1 through ceil(totalItems/pageSize) reconstructs exactly the full
sorted matching set (no duplicates, no omissions), and the totalItems reported on
any page equals the size of the matching set, captured before pagination. -/
theorem pagination_exact (store : List SRecord) (st : SearchIndex) (f : Filters)
    (sorting : Sorting) (limit page : Nat) (hl : 1 ≤ limit) :
    ((List.range (jsCeilDiv (filteredData store st f).length limit)).map
        (fun k => (getSalesDataFiltered store st f sorting ⟨k + 1, limit⟩).data)).flatten
      = pipelineData store st f sorting ∧
    (getSalesDataFiltered store st f sorting ⟨page, limit⟩).totalItems
      = (filteredData store st f).length := by
  constructor
  · have hlen := length_pipelineData store st f sorting
    have hmap : (List.range (jsCeilDiv (filteredData store st f).length limit)).map
        (fun k => (getSalesDataFiltered store st f sorting ⟨k + 1, limit⟩).data)
        = (List.range (jsCeilDiv (pipelineData store st f sorting).length limit)).map
          (fun k => ((pipelineData store st f sorting).drop (k * limit)).take limit) := by
      rw [hlen]
      refine List.map_congr_left (fun k _ => ?_)
      simp [getSalesDataFiltered, applyPagination]
    rw [hmap]
    exact pagesFlatten limit hl (pipelineData store st f sorting).length _ le_rfl
  · rfl

/-- C3 (witness): page reconstruction and the totalItems report at page size 1 on the
concrete two-record store. -/
theorem pagination_exact_witness :
    ((List.range (jsCeilDiv (filteredData demoStore (SearchIndex.build demoStore)
          Filters.inactive).length 1)).map
        (fun k => (getSalesDataFiltered demoStore (SearchIndex.build demoStore)
          Filters.inactive ⟨kDate, kDesc⟩ ⟨k + 1, 1⟩).data)).flatten
      = pipelineData demoStore (SearchIndex.build demoStore) Filters.inactive ⟨kDate, kDesc⟩ ∧
    (getSalesDataFiltered demoStore (SearchIndex.build demoStore) Filters.inactive
        ⟨kDate, kDesc⟩ ⟨3, 1⟩).totalItems
      = (filteredData demoStore (SearchIndex.build demoStore) Filters.inactive).length :=
  pagination_exact demoStore (SearchIndex.build demoStore) Filters.inactive
    ⟨kDate, kDesc⟩ 1 3 (by decide)

/-- C4 (counterexample): the claimed synchronous rejection of out-of-bounds
pagination does not happen — the controller silently clamps: page 0 with page size
5000000 is answered as page 1 with page size 1000000, not rejected. -/
theorem invalid_input_cex : ¬C4Claim := by
  intro h
  have h1 := h 0 5000000
  have h2 : normalizePagination (some 0) (some 5000000) = (1, 1000000) := by decide
  rw [h2] at h1
  exact absurd h1 (by decide)

/-- C4 (amended): what the code actually does with invalid input — the page number
is clamped to ≥ 1, the page size into [1, 1000000] (0 and unparseable values fall
back to the defaults), and a sort key outside the four documented keys makes
applySorting a no-op (the all-ties comparator leaves the data unchanged); no
request is rejected. -/
theorem invalid_input_amended (p l : Option Int) (data : List SRecord) (k o : JStr)
    (hk : k ≠ kDate ∧ k ≠ kQuantity ∧ k ≠ kCustomerName ∧ k ≠ kFinalAmount) :
    1 ≤ (normalizePagination p l).1 ∧
    1 ≤ (normalizePagination p l).2 ∧ (normalizePagination p l).2 ≤ 1000000 ∧
    applySorting data ⟨k, o⟩ = data := by
  obtain ⟨hk1, hk2, hk3, hk4⟩ := hk
  refine ⟨?_, ?_, ?_, ?_⟩
  · show 1 ≤ normalizePage p
    unfold normalizePage
    exact le_max_left _ _
  · show 1 ≤ normalizeLimit l
    unfold normalizeLimit
    exact le_min (by norm_num) (le_max_left _ _)
  · show normalizeLimit l ≤ 1000000
    unfold normalizeLimit
    exact min_le_left _ _
  · have hcb : ∀ a b, cmpBy k a b = 0 := by
      intro a b
      unfold cmpBy
      rw [if_neg (by simp [beq_iff_eq, hk1]), if_neg (by simp [beq_iff_eq, hk2]),
          if_neg (by simp [beq_iff_eq, hk3]), if_neg (by simp [beq_iff_eq, hk4])]
    have hle : ∀ a b : SRecord, sortLe ⟨k, o⟩ a b = true := by
      intro a b
      unfold sortLe jsCompare
      split <;> simp [hcb]
    exact sortJs_of_pairwise (pairwise_of_true hle data)

/-- C4 (witness): the amended behaviour at page 0, limit 5000000, unknown sort key
"bogus". -/
theorem invalid_input_amended_witness :
    1 ≤ (normalizePagination (some 0) (some 5000000)).1 ∧
    1 ≤ (normalizePagination (some 0) (some 5000000)).2 ∧
    (normalizePagination (some 0) (some 5000000)).2 ≤ 1000000 ∧
    applySorting demoStore ⟨"bogus".toList, "asc".toList⟩ = demoStore :=
  invalid_input_amended (some 0) (some 5000000) demoStore ("bogus".toList) ("asc".toList)
    ⟨by decide, by decide, by decide, by decide⟩

/-- C5 (counterexample): the in-memory engine does NOT report a distinct
"index not ready" status.  A request with query "alice" against the never-built
index gets an ordinary response (searchStatus absent) — the unbuilt index was
silently scanned. -/
theorem index_not_ready_cex : ¬C5Claim := by
  intro h
  exact h aliceStore aliceFilters ⟨kDate, kDesc⟩ ⟨1, 10⟩ (by decide) rfl

/-- C5 (amended): what the in-memory engine actually does when the index is not
built (or its recorded length is stale): search silently performs the linear
substring scan over the index's stored normalised data — empty if the index was
never built — and the orchestrator's response carries no distinct status. -/
theorem index_not_ready_amended (store : List SRecord) (st : SearchIndex) (f : Filters)
    (sorting : Sorting) (pag : Pagination)
    (hq : (jsTrim f.search).isEmpty = false)
    (hb : st.isBuilt = false ∨ st.dataLength ≠ store.length) :
    st.search f.search store = some (st.linearSearch (jsTrim (jsToLower f.search))) ∧
    (getSalesDataFiltered store st f sorting pag).searchStatus = none := by
  refine ⟨?_, rfl⟩
  have hguard : (!st.isBuilt || st.dataLength != store.length) = true := by
    rcases hb with h | h
    · simp [h]
    · simp [bne_iff_ne, h]
  simp only [SearchIndex.search]
  rw [if_neg (by simp [hq]), if_pos hguard]

/-- C5 (witness): the amended behaviour at the concrete never-built index and the
query "alice" that would match the collection's only record. -/
theorem index_not_ready_amended_witness :
    SearchIndex.empty.search aliceFilters.search aliceStore
        = some (SearchIndex.empty.linearSearch (jsTrim (jsToLower aliceFilters.search))) ∧
    (getSalesDataFiltered aliceStore SearchIndex.empty aliceFilters ⟨kDate, kDesc⟩
        ⟨1, 10⟩).searchStatus = none :=
  index_not_ready_amended aliceStore SearchIndex.empty aliceFilters ⟨kDate, kDesc⟩ ⟨1, 10⟩
    (by decide) (Or.inl rfl)

/-- C6: for filter specifications constraining disjoint fields, applying the
combined specification in one applyFilters call equals applying the first and then
the second. -/
theorem filter_conjunction (data : List SRecord) (f1 f2 : Filters)
    (h : DisjointFilters f1 f2) :
    applyFilters data (mergeFilters f1 f2) = applyFilters (applyFilters data f1) f2 := by
  rw [applyFilters_eq_filter, applyFilters_eq_filter, applyFilters_eq_filter,
    List.filter_filter]
  exact List.filter_congr (fun item _ => by
    rw [recordMatches_merge f1 f2 item h, Bool.and_comm])

/-- C6 (witness): the conjunction law at a concrete region filter and age filter
over the two-record store. -/
theorem filter_conjunction_witness :
    applyFilters demoStore (mergeFilters regionFilter minAgeFilter)
      = applyFilters (applyFilters demoStore regionFilter) minAgeFilter :=
  filter_conjunction demoStore regionFilter minAgeFilter
    ⟨Or.inr rfl, Or.inl rfl, Or.inl rfl, Or.inl rfl, Or.inl rfl, Or.inl rfl,
     Or.inl rfl, Or.inl rfl, Or.inl rfl⟩

/-- C7: when at least one date bound is active (present and parseable), every record
surviving applyFilters has a parseable date that is ≥ the start bound (when given)
and ≤ the end of the end bound's full day (when given); an unparseable record date
fails closed. -/
theorem date_range_predicate (data : List SRecord) (f : Filters) (item : SRecord)
    (hmem : item ∈ applyFilters data f)
    (hb : (∃ s, f.startDate = some (some s)) ∨ (∃ e, f.endDate = some (some e))) :
    ∃ t, item.dateT = some t ∧
      (∀ s : Int, f.startDate = some (some s) → s ≤ t) ∧
      (∀ e : Int, f.endDate = some (some e) → t ≤ jsEndOfDay e) := by
  rw [applyFilters_eq_filter] at hmem
  have hm := (List.mem_filter.mp hmem).2
  simp only [recordMatches, Bool.and_eq_true] at hm
  have hd : dateOk f item = true := hm.2
  unfold dateOk dateOkP at hd
  have hguard : ((startDateTime f).isNone && (endDateTime f).isNone) = false := by
    rcases hb with ⟨s, hs⟩ | ⟨e, he⟩
    · simp [startDateTime, hs]
    · simp [endDateTime, he]
  rw [if_neg (by simp [hguard])] at hd
  cases hvt : item.dateT with
  | none => rw [hvt] at hd; exact absurd hd (by simp)
  | some t =>
    rw [hvt, Bool.and_eq_true] at hd
    obtain ⟨hd1, hd2⟩ := hd
    refine ⟨t, rfl, ?_, ?_⟩
    · intro s hs
      rw [show startDateTime f = some s by simp [startDateTime, hs]] at hd1
      simpa using hd1
    · intro e he
      rw [show endDateTime f = some (jsEndOfDay e) by simp [endDateTime, he]] at hd2
      simpa using hd2

/-- C7 (witness): the date predicate at the concrete record (time 200) surviving the
start-bound-150 filter. -/
theorem date_range_predicate_witness :
    ∃ t, recA.dateT = some t ∧
      (∀ s : Int, dateFilter.startDate = some (some s) → s ≤ t) ∧
      (∀ e : Int, dateFilter.endDate = some (some e) → t ≤ jsEndOfDay e) :=
  date_range_predicate demoStore dateFilter recA (by decide) (Or.inl ⟨150, rfl⟩)

/-- C8: requesting a page strictly beyond the last page yields a normal response
whose records list is empty and whose hasNextPage is false, while totalItems still
reports the true size of the matching set. -/
theorem beyond_range_page (store : List SRecord) (st : SearchIndex) (f : Filters)
    (sorting : Sorting) (pag : Pagination) (hl : 1 ≤ pag.limit)
    (hp : (getSalesDataFiltered store st f sorting pag).totalPages < pag.page) :
    (getSalesDataFiltered store st f sorting pag).data = [] ∧
    (getSalesDataFiltered store st f sorting pag).hasNextPage = false ∧
    (getSalesDataFiltered store st f sorting pag).totalItems
      = (filteredData store st f).length := by
  have hp2 : jsCeilDiv (filteredData store st f).length pag.limit < pag.page := hp
  refine ⟨?_, ?_, rfl⟩
  · show applyPagination (pipelineData store st f sorting) pag = []
    have hlen := length_pipelineData store st f sorting
    have hmul : (filteredData store st f).length + pag.limit - 1 < pag.page * pag.limit :=
      (Nat.div_lt_iff_lt_mul (by omega)).mp hp2
    have hsub : (pag.page - 1) * pag.limit = pag.page * pag.limit - pag.limit := by
      rw [Nat.sub_mul, one_mul]
    have hle : (pipelineData store st f sorting).length ≤ (pag.page - 1) * pag.limit := by
      rw [hlen, hsub]
      omega
    unfold applyPagination
    rw [List.drop_eq_nil_of_le hle]
    simp
  · show decide (pag.page < jsCeilDiv (filteredData store st f).length pag.limit) = false
    simp only [decide_eq_false_iff_not]
    omega

/-- C8 (witness): page 5 at page size 1 over the two-record store (two pages exist)
returns the empty page with hasNextPage false and the true totalItems. -/
theorem beyond_range_page_witness :
    (getSalesDataFiltered demoStore (SearchIndex.build demoStore) Filters.inactive
        ⟨kDate, kDesc⟩ ⟨5, 1⟩).data = [] ∧
    (getSalesDataFiltered demoStore (SearchIndex.build demoStore) Filters.inactive
        ⟨kDate, kDesc⟩ ⟨5, 1⟩).hasNextPage = false ∧
    (getSalesDataFiltered demoStore (SearchIndex.build demoStore) Filters.inactive
        ⟨kDate, kDesc⟩ ⟨5, 1⟩).totalItems
      = (filteredData demoStore (SearchIndex.build demoStore) Filters.inactive).length :=
  beyond_range_page demoStore (SearchIndex.build demoStore) Filters.inactive
    ⟨kDate, kDesc⟩ ⟨5, 1⟩ (by decide) (by decide)

/-- C10: serving any sequence of queries leaves the store array untouched on the
heap — search/filter/paginate allocate fresh arrays, and the one in-place sort acts
on the spread copy — so the store's pre-sorted natural order survives for
subsequent requests. -/
theorem store_unmutated : ∀ (reqs : List QueryReq) (h : JSHeap) (ref : Nat),
    ref < h.next → (runQueries h ref reqs).arr ref = h.arr ref := by
  intro reqs
  induction reqs with
  | nil => intro h ref _; rfl
  | cons r rest ih =>
    intro h ref hr
    have hp := preserves_pipelineH h ref r
    have h1 := ih (getSalesDataFilteredH h ref r).1 ref (lt_of_lt_of_le hr hp.1)
    exact h1.trans (hp.2 ref hr)

/-- C10 (witness): one concrete filtered-and-sorted query against the demo heap
leaves reference 0 (the store) unchanged. -/
theorem store_unmutated_witness :
    (runQueries demoHeap 0 [demoReq]).arr 0 = demoHeap.arr 0 :=
  store_unmutated [demoReq] demoHeap 0 (by decide)

end Sales
